import Mathlib

/-!
Verification development for the Fed press-release monitoring service
(single source file: main.py).  The Python code is shallowly embedded:
texts are Lean strings (lists of unicode code points, matching Python
str), scores are rationals modelling Python floats, and the stateful
monitoring cycle is explicit state passing.  External collaborators
(HTTP fetch, HTML parsing, cloud storage) are cut at the interfaces the
orchestrator uses: the list of extracted statements is an input, and
persistence is reflected as a boolean flag in the result.
-/

namespace FedMonitor

/-! ## Python string primitives -/

/-- Python `needle in hay` on strings: substring test. -/
def listContains (needle hay : List Char) : Bool :=
  (List.range (hay.length + 1)).any fun i => needle.isPrefixOf (hay.drop i)

/-- Recursion core for `countOcc`.  The fuel argument only makes the
recursion structural; every step consumes at least one character, so the
fuel (initially the text length) never runs out. -/
def countOccAux (needle : List Char) : Nat → List Char → Nat
  | _, [] => 0
  | 0, _ :: _ => 0
  | fuel + 1, c :: rest =>
    if needle.isPrefixOf (c :: rest) then
      countOccAux needle fuel (rest.drop (needle.length - 1)) + 1
    else
      countOccAux needle fuel rest

/-- Python `hay.count(needle)`: number of non-overlapping occurrences,
scanning left to right and advancing past each match; an empty needle
counts `len(hay) + 1` occurrences, as in Python. -/
def countOcc (needle hay : List Char) : Nat :=
  if needle.isEmpty then hay.length + 1
  else countOccAux needle hay.length hay

/-- Python `needle in hay` for `str`. -/
def pyIn (needle hay : String) : Bool := listContains needle.data hay.data

/-- Lexicographic strict comparison of code-point lists (the order Python
uses on strings). -/
def listLexLt : List Char → List Char → Bool
  | [], [] => false
  | [], _ :: _ => true
  | _ :: _, [] => false
  | a :: as, b :: bs =>
    if a < b then true
    else if b < a then false
    else listLexLt as bs

/-- Python `a < b` on strings: code-point lexicographic. -/
def pyStrLt (a b : String) : Bool := listLexLt a.data b.data

/-- Python `a <= b` on strings (total order: `a <= b` iff not `b < a`). -/
def pyStrLe (a b : String) : Bool := !pyStrLt b a

/-- Python `hay.count(needle)` for `str`. -/
def pyCount (needle hay : String) : Nat := countOcc needle.data hay.data

/-- Python `s.lower()` (code-point-wise lowering; the texts involved are
ASCII, where this coincides with Python). -/
def pyLower (s : String) : String := ⟨s.data.map Char.toLower⟩

/-- Python `s.strip()`: drop whitespace from both ends. -/
def pyStrip (l : List Char) : List Char :=
  ((l.dropWhile Char.isWhitespace).reverse.dropWhile Char.isWhitespace).reverse

/-- Recursion core for `pySplitWS` (fuel as in `countOccAux`). -/
def pySplitWSAux : Nat → List Char → List (List Char)
  | _, [] => []
  | 0, _ :: _ => []
  | fuel + 1, c :: rest =>
    if c.isWhitespace then pySplitWSAux fuel rest
    else (c :: rest.takeWhile (fun ch => !ch.isWhitespace)) ::
         pySplitWSAux fuel (rest.dropWhile (fun ch => !ch.isWhitespace))

/-- Python `s.split()` (no separator): maximal runs of non-whitespace. -/
def pySplitWS (l : List Char) : List (List Char) := pySplitWSAux l.length l

/-! ## The regex fragments used by main.py

main.py uses only a few fixed regular-expression shapes on lowered text;
each is embedded directly:

* `re.search(r'(a1|a2|..).{1,N}(b1|b2|..)', s)` as a boolean: some head
  literal occurs, followed by a gap of 1..N characters none of which is a
  newline (`.` does not match `\n`), followed by some tail literal;
* `re.findall(r'(l1|l2|..)', s)` as a count of non-overlapping matches,
  trying alternatives in pattern order at each position. -/

/-- Boolean for `re.search` of a pattern `(heads).{1,maxGap}(tails)`. -/
def searchGap (heads : List String) (maxGap : Nat) (tails : List String)
    (s : String) : Bool :=
  let cs := s.data
  (List.range (cs.length + 1)).any fun i =>
    heads.any fun a =>
      a.data.isPrefixOf (cs.drop i) &&
      ((List.range' 1 maxGap).any fun g =>
        (((cs.drop (i + a.data.length)).take g).length == g) &&
        (((cs.drop (i + a.data.length)).take g).all fun ch => ch != '\n') &&
        (tails.any fun b => b.data.isPrefixOf (cs.drop (i + a.data.length + g))))

/-- Recursion core for `countAltMatches` (fuel as in `countOccAux`). -/
def countAltMatchesAux (alts : List String) : Nat → List Char → Nat
  | _, [] => 0
  | 0, _ :: _ => 0
  | fuel + 1, c :: rest =>
    match alts.find? (fun a => a.data.isPrefixOf (c :: rest)) with
    | some a => countAltMatchesAux alts fuel (rest.drop (a.data.length - 1)) + 1
    | none => countAltMatchesAux alts fuel rest

/-- Number of matches of `re.findall` for a plain alternation of literals:
at each position the alternatives are tried in order; a match consumes its
length, a failure advances one character. -/
def countAltMatches (alts : List String) (l : List Char) : Nat :=
  countAltMatchesAux alts l.length l

/-- Case-insensitive literal prefix test (`re.IGNORECASE` with a lowercase
pattern literal): the next `pat.length` characters, lowered, equal `pat`. -/
def ciIsPrefixOf (pat s : List Char) : Bool :=
  (s.take pat.length).map Char.toLower == pat

/-- Length of the maximal run of characters in the class `[^\.;]` (any
character other than a period or a semicolon; newlines are in the class). -/
def classRunLen (s : List Char) : Nat :=
  (s.takeWhile fun c => c != '.' && c != ';').length

/-- Anchored matcher for the rate-decision pattern
`(?:PRE)([^\.;]+)(?:MID)([^\.;]*)` at the head of `s`, following the
engine's backtracking order: pre-alternatives in pattern order, then the
greedy one-or-more class (longest first), then mid-alternatives in order,
then the greedy zero-or-more class.  Returns the concatenation of the two
captured groups (taken from the original, case-preserved text) and the
number of characters consumed. -/
def rateMatchHead (pres mids : List String) (s : List Char) :
    Option (List Char × Nat) :=
  pres.findSome? fun pre =>
    if ciIsPrefixOf pre.data s then
      let s1 := s.drop pre.data.length
      let m := classRunLen s1
      (List.range m).findSome? fun k =>
        let g1len := m - k
        mids.findSome? fun mid =>
          if ciIsPrefixOf mid.data (s1.drop g1len) then
            let s2 := (s1.drop g1len).drop mid.data.length
            let g2len := classRunLen s2
            some (s1.take g1len ++ s2.take g2len,
                  pre.data.length + g1len + mid.data.length + g2len)
          else none
    else none

/-- Anchored matcher for the patterns `(?:TRIG)([^\.;]{lo,hi})` at the
head of `s`: some trigger alternative (in order), then a greedy bounded
class run of at least `lo` characters, capped at `hi`. -/
def triggerMatchHead (trigs : List String) (lo hi : Nat) (s : List Char) :
    Option (List Char × Nat) :=
  trigs.findSome? fun trig =>
    if ciIsPrefixOf trig.data s then
      let s1 := s.drop trig.data.length
      let m := classRunLen s1
      if lo ≤ m then
        some (s1.take (min m hi), trig.data.length + min m hi)
      else none
    else none

/-- Recursion core for `scanFindall` (fuel as in `countOccAux`). -/
def scanFindallAux (matcher : List Char → Option (List Char × Nat)) :
    Nat → List Char → List (List Char)
  | _, [] =>
    match matcher [] with
    | some (cap, _) => [cap]
    | none => []
  | 0, _ :: _ => []
  | fuel + 1, c :: rest =>
    match matcher (c :: rest) with
    | some (cap, consumed) =>
      cap :: scanFindallAux matcher fuel (rest.drop (consumed - 1))
    | none => scanFindallAux matcher fuel rest

/-- `re.findall` scan for an anchored matcher: at each position try the
matcher; on success record the capture and continue past the consumed
text (an empty-width match advances one character, as the engine does);
on failure advance one character.  Positions run to the end of `s`
inclusive. -/
def scanFindall (matcher : List Char → Option (List Char × Nat))
    (l : List Char) : List (List Char) :=
  scanFindallAux matcher l.length l

/-! ## Static configuration data (FedMonitor.__init__ and the pattern
literals of extract_policy_decisions) -/

/-- The reference tightening keyword list (`self.tightening_keywords`). -/
def tighteningKeywords : List String :=
  ["inflation risk", "price stability", "overheating", "tighter", "hawkish",
   "raise rates", "rate hike", "restrictive policy", "combat inflation",
   "reduce balance sheet", "quantitative tightening", "QT", "upside risk",
   "above target", "elevated inflation", "inflation concern",
   "inflation remains elevated", "inflation has not progressed",
   "tight labor market", "upward pressure on prices",
   "higher policy rate", "increased the target range",
   "firm policy stance", "higher for longer", "will need to remain restrictive",
   "further tightening", "inflation risks", "unacceptably high",
   "persistent inflationary pressures", "further policy firming",
   "commitment to restoring price stability"]

/-- The verb alternatives anchoring the rate-decision pattern. -/
def ratePres : List String :=
  ["decided to", "committee will", "has decided to", "agreed to", "decided",
   "appropriate to", "increase the target range for the federal funds rate to",
   "decided that the", "decided to maintain", "will maintain"]

/-- The rate-related noun alternatives of the rate-decision pattern. -/
def rateMids : List String :=
  ["federal funds rate", "policy rate", "interest rate", "interest rates",
   "basis points", "percentage point", "target range"]

/-- The balance-sheet trigger alternatives. -/
def balanceTrigs : List String :=
  ["balance sheet", "securities holdings", "asset purchases", "quantitative",
   "maturity extension", "reinvestment", "reinvesting", "redemptions"]

/-- The forward-guidance trigger alternatives. -/
def guidanceTrigs : List String :=
  ["future adjustments", "future increases", "subsequent meeting",
   "coming months", "going forward", "remain vigilant",
   "remains highly attentive", "future policy", "will be prepared to adjust",
   "the committee anticipates", "the committee expects",
   "the committee is strongly committed", "appropriate path", "policy path",
   "outlook", "will take into account", "in determining"]

/-! ## Decision Extractor (extract_policy_decisions) -/

/-- main.py `extract_policy_decisions`: three case-insensitive pattern
passes over the text — rate decisions, balance-sheet actions, forward
guidance — concatenated in pass order, then match order. -/
def extractPolicyDecisions (text : String) : List String :=
  let rateDecisions :=
    (scanFindall (rateMatchHead ratePres rateMids) text.data).filterMap fun m =>
      let decision := pyStrip m
      if decision ≠ [] ∧ decision.length > 10 then
        some ("Rate Decision: " ++ String.mk decision)
      else none
  let balanceDecisions :=
    (scanFindall (triggerMatchHead balanceTrigs 10 150) text.data).filterMap fun m =>
      if m ≠ [] ∧ m.length > 15 then
        some ("Balance Sheet: " ++ String.mk (pyStrip m))
      else none
  let guidanceDecisions :=
    (scanFindall (triggerMatchHead guidanceTrigs 10 200) text.data).filterMap fun m =>
      if m ≠ [] ∧ m.length > 15 then
        some ("Forward Guidance: " ++ String.mk (pyStrip m))
      else none
  rateDecisions ++ balanceDecisions ++ guidanceDecisions

/-! ## Tightening Scorer (analyze_tightening_signals) -/

/-- One iteration of the keyword loop of analyze_tightening_signals:
when the lowered keyword occurs in the lowered text its occurrence count
is added to the running tightening count and the keyword (in its
reference form) is appended to the found list. -/
def keywordStep (textLower : String) (acc : Nat × List String)
    (keyword : String) : Nat × List String :=
  if pyIn (pyLower keyword) textLower then
    let count := pyCount (pyLower keyword) textLower
    (acc.1 + count, if count > 0 then acc.2 ++ [keyword] else acc.2)
  else acc

/-- The keyword loop of analyze_tightening_signals: the keyword-derived
tightening count together with the found-keyword list, in reference-list
order. -/
def keywordScan (textLower : String) : Nat × List String :=
  tighteningKeywords.foldl (keywordStep textLower) (0, [])

/-- main.py `analyze_tightening_signals`: returns
(tightening score, found keywords, policy decisions).  Scores are
rationals modelling Python floats. -/
def analyzeTighteningSignals (text : String) : ℚ × List String × List String :=
  if text.data = [] then (0, [], [])
  else
    let textLower := pyLower text
    let kwFold := keywordScan textLower
    let directionChange :=
      searchGap ["shift", "change", "pivot"] 30
        ["stance", "policy", "direction"] textLower
    let comparativeTightening :=
      searchGap ["more", "increased", "stronger", "further"] 20
        ["restrictive", "hawkish", "tighten"] textLower
    let count1 := kwFold.1 + (if comparativeTightening then 2 else 0)
    let qtMentions := countAltMatches
      ["balance sheet reduction", "quantitative tightening", "qt",
       "runoff", "run-off"] textLower.data
    let count2 := count1 + qtMentions
    let rateHike :=
      searchGap ["raise", "increase", "raising", "increasing"] 30
        ["federal funds rate", "interest rate", "target range", "policy rate"]
        textLower
    let tighteningCount := count2 + (if rateHike then 3 else 0)
    let policyDecisions := extractPolicyDecisions text
    let textLength := (pySplitWS textLower.data).length
    let baseScore : ℚ := ((tighteningCount : ℚ) / max 1 ((textLength : ℚ) / 100)) * 50
    let boosted := baseScore + (if directionChange then 15 else 0)
      + (if comparativeTightening then 20 else 0)
      + (if rateHike then 10 else 0)
    let easingLanguage :=
      searchGap ["lower", "decrease", "cut", "reduce", "pause", "hold", "reduction"]
        30 ["federal funds rate", "interest rate", "target range", "policy rate"]
        textLower
    let final := boosted - (if easingLanguage then 20 else 0)
    (min 100 (max 0 final), kwFold.2, policyDecisions)

/-! ## Number formatting (Python f-string `:.1f`) -/

/-- A single decimal digit character. -/
def digitChar (n : Nat) : Char :=
  match n with
  | 0 => '0' | 1 => '1' | 2 => '2' | 3 => '3' | 4 => '4'
  | 5 => '5' | 6 => '6' | 7 => '7' | 8 => '8' | _ => '9'

/-- Recursion core for `natToDigits` (structural fuel; `n + 1` steps are
always enough since the value shrinks ten-fold each step). -/
def natToDigitsAux : Nat → Nat → List Char
  | 0, _ => []
  | fuel + 1, n =>
    if n < 10 then [digitChar n]
    else natToDigitsAux fuel (n / 10) ++ [digitChar (n % 10)]

/-- Decimal digits of a natural number, most significant first. -/
def natToDigits (n : Nat) : List Char := natToDigitsAux (n + 1) n

/-- Floor of a rational, via floor division of numerator by denominator. -/
def floorQ (q : ℚ) : ℤ := q.num.fdiv q.den

/-- Round to the nearest integer, ties to even (the rounding applied when
formatting a value to a fixed number of decimal places). -/
def roundHalfEven (q : ℚ) : ℤ :=
  let f := floorQ q
  let r := q - (f : ℚ)
  if r < 1/2 then f
  else if 1/2 < r then f + 1
  else if f % 2 = 0 then f else f + 1

/-- Python `f"{x:.1f}"` on the rational model of a float: the value
rounded to one decimal place, rendered as sign, integer digits, a
decimal point and one fractional digit. -/
def fmt1 (q : ℚ) : String :=
  let n := roundHalfEven (q * 10)
  let sign : List Char := if n < 0 ∨ (n = 0 ∧ q < 0) then ['-'] else []
  let m := n.natAbs
  String.mk (sign ++ natToDigits (m / 10) ++ '.' :: natToDigits (m % 10))

/-! ## Data model -/

/-- One persisted statement record (the dicts stored in
`self.historical_statements`). -/
structure StatementRecord where
  date : String
  text : String
  tightening_score : ℚ
  tightening_keywords : List String
  policy_decisions : List String
  url : String
deriving DecidableEq

/-! ## Historical Comparator (compare_to_previous) -/

/-- main.py `compare_to_previous`.  The source reads the scores with
`.get('tightening_score', 0)`; records always carry the field here.
`None` for the previous statement yields the no-comparison indicator. -/
def compareToPrevious (current : StatementRecord)
    (previous : Option StatementRecord) : String :=
  match previous with
  | none => "No previous statement for comparison"
  | some prev =>
    let difference := current.tightening_score - prev.tightening_score
    if difference > 15 then
      "SIGNIFICANT TIGHTENING SHIFT: +" ++ fmt1 difference ++ " points"
    else if difference > 5 then
      "Moderate tightening shift: +" ++ fmt1 difference ++ " points"
    else if difference < -15 then
      "SIGNIFICANT LOOSENING SHIFT: " ++ fmt1 difference ++ " points"
    else if difference < -5 then
      "Moderate loosening shift: " ++ fmt1 difference ++ " points"
    else
      "No significant policy shift: " ++ fmt1 difference ++ " points"

/-! ## Summary Generator (generate_summary) -/

/-- Splitter for `re.split(r'(?<=[.!?])\s+', text)`: walking the text, a
whitespace character whose predecessor is `.`, `!` or `?` ends the
current piece and the whole whitespace run is consumed (fuel as in
`countOccAux`). -/
def pySplitSentAux : Nat → Bool → List Char → List Char → List (List Char)
  | _, _, acc, [] => [acc.reverse]
  | 0, _, acc, _ :: _ => [acc.reverse]
  | fuel + 1, prevPunct, acc, c :: rest =>
    if prevPunct && c.isWhitespace then
      acc.reverse ::
        pySplitSentAux fuel false [] (rest.dropWhile Char.isWhitespace)
    else
      pySplitSentAux fuel (c == '.' || c == '!' || c == '?') (c :: acc) rest

/-- Sentence segmentation of generate_summary. -/
def pySplitSentences (s : String) : List String :=
  (pySplitSentAux s.data.length false [] s.data).map fun l => String.mk l

/-- Month names for strftime `%B`. -/
def monthName (m : Nat) : String :=
  match m with
  | 1 => "January" | 2 => "February" | 3 => "March" | 4 => "April"
  | 5 => "May" | 6 => "June" | 7 => "July" | 8 => "August"
  | 9 => "September" | 10 => "October" | 11 => "November" | _ => "December"

/-- Numeric value of a decimal digit character. -/
def digitVal (c : Char) : Option Nat :=
  if c.isDigit then some (c.toNat - 48) else none

/-- Parse the leading `YYYY-MM-DD` of an ISO date string
(`datetime.datetime.fromisoformat`).  `none` models the `ValueError` the
source would raise; dates produced by `date.isoformat()` always parse. -/
def parseIsoDate (s : String) : Option (Nat × Nat × Nat) :=
  match s.data with
  | y1 :: y2 :: y3 :: y4 :: '-' :: m1 :: m2 :: '-' :: d1 :: d2 :: _ => do
    let a ← digitVal y1
    let b ← digitVal y2
    let c ← digitVal y3
    let d ← digitVal y4
    let e ← digitVal m1
    let f ← digitVal m2
    let g ← digitVal d1
    let h ← digitVal d2
    let year := ((a * 10 + b) * 10 + c) * 10 + d
    let month := e * 10 + f
    let day := g * 10 + h
    if 1 ≤ month ∧ month ≤ 12 ∧ 1 ≤ day ∧ day ≤ 31 then some (year, month, day)
    else none
  | _ => none

/-- strftime `%d`: zero-padded two-digit day. -/
def pad2 (n : Nat) : String :=
  if n < 10 then "0" ++ String.mk (natToDigits n) else String.mk (natToDigits n)

/-- `datetime.datetime.fromisoformat(date).strftime('%B %d, %Y')`.  On a
malformed date the source raises; the model returns "" in that case,
which cannot arise for the ISO dates the extractor stores. -/
def formatDateLong (date : String) : String :=
  match parseIsoDate date with
  | some (y, m, d) =>
    monthName m ++ " " ++ pad2 d ++ ", " ++ String.mk (natToDigits y)
  | none => ""

/-- The phrase list used to pick relevant excerpt sentences
(`self.tightening_keywords` plus four core phrases). -/
def interestPhrases : List String :=
  tighteningKeywords ++
    ["federal funds rate", "monetary policy", "interest rate", "target range"]

/-- The excerpt accumulator of generate_summary: a sentence qualifies if
some interest phrase occurs in it case-insensitively; the stripped
sentence is kept when nonempty and not already collected.  The source's
inner loop breaks only after a successful append, but later phrase
matches re-test the same stripped sentence and never append, so taking
the first matching phrase computes the same list. -/
def relevantSentences (sentences : List String) : List String :=
  sentences.foldl
    (fun acc sentence =>
      match interestPhrases.find?
          (fun phrase => pyIn (pyLower phrase) (pyLower sentence)) with
      | some _ =>
        let clean := String.mk (pyStrip sentence.data)
        if clean ≠ "" ∧ ¬ acc.contains clean then acc ++ [clean] else acc
      | none => acc)
    []

/-- main.py `generate_summary`: the formatted report, built exactly as
the source's string concatenations. -/
def generateSummary (statement : StatementRecord) (comparisonResult : String) :
    String :=
  let header :=
    "Date: " ++ formatDateLong statement.date ++ "\n" ++
    "Tightening Score: " ++ fmt1 statement.tightening_score ++ "/100\n" ++
    "Policy Shift: " ++ comparisonResult ++ "\n\n"
  let decisionsPart :=
    if statement.policy_decisions ≠ [] then
      "Key Policy Decisions:\n" ++
      String.join (statement.policy_decisions.map fun d => "- " ++ d ++ "\n") ++
      "\n"
    else ""
  let signalsPart :=
    "Tightening Signals:\n" ++
    String.join (statement.tightening_keywords.map fun k => "- " ++ k ++ "\n")
  let excerptsPart :=
    "\nRelevant Excerpts:\n" ++
    String.join
      (((relevantSentences (pySplitSentences statement.text)).take 5).enum.map
        fun p => String.mk (natToDigits (p.1 + 1)) ++ ". " ++ p.2 ++ "\n")
  header ++ decisionsPart ++ signalsPart ++ excerptsPart ++
    "\nFull statement: " ++ statement.url

/-! ## Monitoring Orchestrator (run_monitoring_cycle) -/

/-- One extracted document, as produced by extract_statements: ISO date,
full text, source URL. -/
structure ExtractedStatement where
  date : String
  text : String
  url : String
deriving DecidableEq

/-- One entry of the result's `new_statements` list. -/
structure NewStatementEntry where
  date : String
  url : String
  tightening_score : ℚ
  keywords : List String
  policy_decisions : List String
deriving DecidableEq

/-- One entry of the result's `tightening_alerts` list. -/
structure TighteningAlert where
  statement_date : String
  summary : String
deriving DecidableEq

/-- The in-cycle state: the in-memory history plus the accumulating
result lists. -/
structure CycleState where
  history : List StatementRecord
  new_statements : List NewStatementEntry
  tightening_alerts : List TighteningAlert
deriving DecidableEq

/-- The record built for a processed document: scoring, plus truncation
of the stored text to 1000 characters with an ellipsis marker. -/
def buildNewStatement (stmt : ExtractedStatement) : StatementRecord :=
  let a := analyzeTighteningSignals stmt.text
  { date := stmt.date
    text :=
      if stmt.text.length > 1000 then String.mk (stmt.text.data.take 1000) ++ "..."
      else stmt.text
    tightening_score := a.1
    tightening_keywords := a.2.1
    policy_decisions := a.2.2
    url := stmt.url }

/-- The previous-record selection of run_monitoring_cycle: sort the
history by date descending (Python `sorted` with `reverse=True`, which is
a stable sort; two stable sorts under the same total comparator compute
the same list, so a stable insertion sort models it exactly; ISO date
strings compare chronologically) and take the first record whose date is
strictly below the current date. -/
def findPrevious (history : List StatementRecord) (d : String) :
    Option StatementRecord :=
  (history.insertionSort fun a b => pyStrLe b.date a.date = true).find?
    fun s => pyStrLt s.date d

/-- The in-memory history update of run_monitoring_cycle: append the new
record when not forcing and the date is absent from the loaded snapshot;
replace the entries carrying the date when forcing and the date is
present; otherwise leave the history as it is (in particular, forcing
with a date absent from the snapshot changes nothing). -/
def updateHistory (force : Bool) (existingDates : List String)
    (history : List StatementRecord) (stmtDate : String)
    (newStatement : StatementRecord) : List StatementRecord :=
  if !force && !existingDates.contains stmtDate then
    history ++ [newStatement]
  else if force && existingDates.contains stmtDate then
    history.map fun s => if s.date ≠ stmtDate then s else newStatement
  else
    history

/-- The per-document body of run_monitoring_cycle's loop: the force/date
gate, scoring, result append, history append-or-replace, and the
comparison/alerting step.  `existingDates` is the date snapshot taken
from the loaded history before the loop and never updated inside it. -/
def processStatement (force : Bool) (existingDates : List String)
    (st : CycleState) (stmt : ExtractedStatement) : CycleState :=
  if force || !existingDates.contains stmt.date then
    let newStatement := buildNewStatement stmt
    let newStatements := st.new_statements ++
      [⟨newStatement.date, newStatement.url, newStatement.tightening_score,
        newStatement.tightening_keywords, newStatement.policy_decisions⟩]
    let history := updateHistory force existingDates st.history stmt.date newStatement
    let alerts :=
      if history.length > 1 then
        match findPrevious history newStatement.date with
        | some previous =>
          let comparison := compareToPrevious newStatement (some previous)
          if pyIn "TIGHTENING SHIFT" comparison then
            st.tightening_alerts ++
              [⟨newStatement.date, generateSummary newStatement comparison⟩]
          else st.tightening_alerts
        | none => st.tightening_alerts
      else st.tightening_alerts
    { history := history, new_statements := newStatements,
      tightening_alerts := alerts }
  else st

/-- The diagnostic metadata of the result (`debug_info`); the wall-clock
timestamps of the source are not modelled.  Fields set only on the
success path are options. -/
structure DebugInfo where
  historical_statements_count : Nat
  statements_found : Option Nat
  new_statements_processed : Option Nat
  final_historical_count : Option Nat
deriving DecidableEq

/-- The structured result of a monitoring cycle. -/
structure MonitoringResult where
  new_statements : List NewStatementEntry
  tightening_alerts : List TighteningAlert
  status : String
  error : Option String
  debug_info : DebugInfo
deriving DecidableEq

/-- main.py `run_monitoring_cycle`, cut at its collaborator boundaries:
the loaded history is an argument, and `extractResult` injects either the
extracted statements or an orchestration-level failure raised by the
extraction step (the only fallible step of the try block; the per-URL
failures inside extract_statements are already isolated there).  Returns
the result, the final in-memory history, and whether
save_historical_data is invoked (the source's save condition
`not force or (force and results['new_statements'])`). -/
def runMonitoringCycle (force : Bool) (history : List StatementRecord)
    (extractResult : Except String (List ExtractedStatement)) :
    MonitoringResult × List StatementRecord × Bool :=
  match extractResult with
  | .error e =>
    ({ new_statements := [], tightening_alerts := [], status := "error",
       error := some e,
       debug_info := ⟨history.length, none, none, none⟩ }, history, false)
  | .ok statements =>
    let existingDates := history.map (·.date)
    let final := statements.foldl (processStatement force existingDates)
      ⟨history, [], []⟩
    let saved := !force || !final.new_statements.isEmpty
    ({ new_statements := final.new_statements,
       tightening_alerts := final.tightening_alerts,
       status := "success", error := none,
       debug_info := ⟨history.length, some statements.length,
         some final.new_statements.length, some final.history.length⟩ },
     final.history, saved)

/-! ## Substring machinery -/

theorem isPrefixOf_true_iff :
    ∀ (l₁ l₂ : List Char), l₁.isPrefixOf l₂ = true ↔ ∃ t, l₁ ++ t = l₂
  | [], l₂ => by simp [List.isPrefixOf]
  | a :: l₁, [] => by simp [List.isPrefixOf]
  | a :: l₁, b :: l₂ => by
    simp only [List.isPrefixOf, Bool.and_eq_true, beq_iff_eq,
      isPrefixOf_true_iff l₁ l₂, List.cons_append, List.cons.injEq]
    constructor
    · rintro ⟨rfl, t, rfl⟩
      exact ⟨t, rfl, rfl⟩
    · rintro ⟨t, rfl, rfl⟩
      exact ⟨rfl, t, rfl⟩

theorem listContains_iff {n h : List Char} :
    listContains n h = true ↔ ∃ s t, s ++ n ++ t = h := by
  unfold listContains
  rw [List.any_eq_true]
  constructor
  · rintro ⟨i, hi, hp⟩
    obtain ⟨t, ht⟩ := (isPrefixOf_true_iff n (h.drop i)).mp hp
    exact ⟨h.take i, t, by rw [List.append_assoc, ht, List.take_append_drop]⟩
  · rintro ⟨s, t, rfl⟩
    refine ⟨s.length, ?_, ?_⟩
    · rw [List.mem_range]
      simp only [List.length_append]
      omega
    · rw [List.append_assoc, List.drop_left]
      exact (isPrefixOf_true_iff n (n ++ t)).mpr ⟨t, rfl⟩

theorem sublist_of_contains {n h : List Char} (hc : listContains n h = true) :
    n.Sublist h := by
  obtain ⟨s, t, rfl⟩ := listContains_iff.mp hc
  rw [List.append_assoc]
  exact (List.sublist_append_left n t).trans (List.sublist_append_right s (n ++ t))

theorem contains_append_left (n s t : List Char) (h : listContains n s = true) :
    listContains n (s ++ t) = true := by
  obtain ⟨x, y, rfl⟩ := listContains_iff.mp h
  exact listContains_iff.mpr ⟨x, y ++ t, by simp [List.append_assoc]⟩

theorem contains_append_right (n s t : List Char) (h : listContains n t = true) :
    listContains n (s ++ t) = true := by
  obtain ⟨x, y, rfl⟩ := listContains_iff.mp h
  exact listContains_iff.mpr ⟨s ++ x, y, by simp [List.append_assoc]⟩

theorem pyIn_append_left (n s t : String) (h : pyIn n s = true) :
    pyIn n (s ++ t) = true := by
  unfold pyIn at h ⊢
  rw [String.data_append]
  exact contains_append_left _ _ _ h

theorem pyIn_append_right (n s t : String) (h : pyIn n t = true) :
    pyIn n (s ++ t) = true := by
  unfold pyIn at h ⊢
  rw [String.data_append]
  exact contains_append_right _ _ _ h

theorem countOccAux_pos {n : List Char} (hn : n ≠ []) :
    ∀ (fuel : Nat) (h : List Char), h.length ≤ fuel →
      listContains n h = true → 0 < countOccAux n fuel h
  | fuel, [] => fun _ hc => by
    exfalso
    obtain ⟨s, t, heq⟩ := listContains_iff.mp hc
    cases s <;> cases n <;> simp_all
  | 0, c :: rest => fun hlen _ => by simp at hlen
  | fuel + 1, c :: rest => fun hlen hc => by
    simp only [countOccAux]
    by_cases hp : n.isPrefixOf (c :: rest) = true
    · rw [if_pos hp]
      omega
    · rw [if_neg hp]
      apply countOccAux_pos hn fuel rest
        (by simp only [List.length_cons] at hlen; omega)
      obtain ⟨s, t, heq⟩ := listContains_iff.mp hc
      cases s with
      | nil =>
        exact absurd ((isPrefixOf_true_iff n (c :: rest)).mpr
          ⟨t, by simpa using heq⟩) hp
      | cons a s2 =>
        apply listContains_iff.mpr
        refine ⟨s2, t, ?_⟩
        have heq2 : a :: (s2 ++ n ++ t) = c :: rest := by simpa using heq
        exact (List.cons.injEq a _ c rest ▸ heq2).2

theorem countOcc_pos {n : List Char} (hn : n ≠ []) (h : List Char)
    (hc : listContains n h = true) : 0 < countOcc n h := by
  have hne2 : n.isEmpty = false := by
    cases n
    · exact absurd rfl hn
    · rfl
  unfold countOcc
  rw [hne2]
  simp only [Bool.false_eq_true, if_false]
  exact countOccAux_pos hn h.length h le_rfl hc

/-! ## Keyword-loop lemmas -/

theorem foldl_keywordStep_fst (tl : String) :
    ∀ (l : List String) (acc : Nat × List String),
      (l.foldl (keywordStep tl) acc).1 =
        acc.1 + (l.map fun k =>
          if pyIn (pyLower k) tl = true then pyCount (pyLower k) tl else 0).sum
  | [], acc => by simp
  | k :: l, acc => by
    simp only [List.foldl_cons, List.map_cons, List.sum_cons,
      foldl_keywordStep_fst tl l]
    unfold keywordStep
    by_cases hk : pyIn (pyLower k) tl = true
    · rw [if_pos hk, if_pos hk]
      simp only []
      omega
    · rw [if_neg hk, if_neg hk]
      omega

theorem mem_foldl_keywordStep (tl : String) :
    ∀ (l : List String) (acc : Nat × List String) (x : String),
      x ∈ acc.2 → x ∈ (l.foldl (keywordStep tl) acc).2
  | [], _, _ => fun hx => hx
  | k :: l, acc, x => fun hx => by
    simp only [List.foldl_cons]
    apply mem_foldl_keywordStep tl l
    unfold keywordStep
    by_cases h1 : pyIn (pyLower k) tl = true
    · rw [if_pos h1]
      show x ∈ (if pyCount (pyLower k) tl > 0 then acc.2 ++ [k] else acc.2)
      by_cases h2 : pyCount (pyLower k) tl > 0
      · rw [if_pos h2]
        exact List.mem_append_left _ hx
      · rw [if_neg h2]
        exact hx
    · rw [if_neg h1]
      exact hx

theorem keywordScan_mem_aux (tl : String) :
    ∀ (l : List String) (acc : Nat × List String) (k : String),
      k ∈ l → pyIn (pyLower k) tl = true → 0 < pyCount (pyLower k) tl →
      k ∈ (l.foldl (keywordStep tl) acc).2
  | [], _, k, hmem, _, _ => absurd hmem (List.not_mem_nil k)
  | k' :: l, acc, k, hmem, hin, hcnt => by
    simp only [List.foldl_cons]
    rcases List.mem_cons.mp hmem with rfl | hmem'
    · apply mem_foldl_keywordStep
      unfold keywordStep
      rw [if_pos hin]
      simp only []
      rw [if_pos (by omega : pyCount (pyLower k) tl > 0)]
      exact List.mem_append_right _ (List.mem_singleton.mpr rfl)
    · exact keywordScan_mem_aux tl l _ k hmem' hin hcnt

theorem two_le_sum_map (f : String → ℕ) (l : List String) (k1 k2 : String)
    (h1 : k1 ∈ l) (h2 : k2 ∈ l) (hne : k1 ≠ k2) :
    f k1 + f k2 ≤ (l.map f).sum := by
  obtain ⟨s, t, rfl⟩ := List.append_of_mem h1
  rcases List.mem_append.mp h2 with hs | ht
  · have hle : f k2 ≤ (s.map f).sum :=
      List.single_le_sum (fun x _ => Nat.zero_le x) _ (List.mem_map_of_mem f hs)
    simp only [List.map_append, List.sum_append, List.map_cons, List.sum_cons]
    omega
  · rcases List.mem_cons.mp ht with rfl | ht2
    · exact absurd rfl hne
    · have hle : f k2 ≤ (t.map f).sum :=
        List.single_le_sum (fun x _ => Nat.zero_le x) _ (List.mem_map_of_mem f ht2)
      simp only [List.map_append, List.sum_append, List.map_cons, List.sum_cons]
      omega

/-! ## Formatting lemmas -/

theorem digitChar_ne_T : ∀ n : Nat, digitChar n ≠ 'T'
  | 0 => by decide
  | 1 => by decide
  | 2 => by decide
  | 3 => by decide
  | 4 => by decide
  | 5 => by decide
  | 6 => by decide
  | 7 => by decide
  | 8 => by decide
  | n + 9 => by
    show ('9' : Char) ≠ 'T'
    decide

theorem not_mem_natToDigitsAux_T : ∀ (fuel n : Nat), 'T' ∉ natToDigitsAux fuel n
  | 0, _ => List.not_mem_nil _
  | fuel + 1, n => by
    simp only [natToDigitsAux]
    split
    · simp only [List.mem_singleton]
      exact fun h => digitChar_ne_T _ h.symm
    · intro hmem
      rcases List.mem_append.mp hmem with h1 | h2
      · exact not_mem_natToDigitsAux_T fuel (n / 10) h1
      · rw [List.mem_singleton] at h2
        exact digitChar_ne_T _ h2.symm

theorem not_mem_natToDigits_T (n : Nat) : 'T' ∉ natToDigits n :=
  not_mem_natToDigitsAux_T (n + 1) n

theorem count_T_fmt1 (q : ℚ) : List.count 'T' (fmt1 q).data = 0 := by
  rw [List.count_eq_zero]
  show 'T' ∉
    ((if roundHalfEven (q * 10) < 0 ∨ (roundHalfEven (q * 10) = 0 ∧ q < 0)
        then ['-'] else []) ++
      natToDigits ((roundHalfEven (q * 10)).natAbs / 10) ++
      '.' :: natToDigits ((roundHalfEven (q * 10)).natAbs % 10))
  intro hmem
  rcases List.mem_append.mp hmem with h1 | h2
  · rcases List.mem_append.mp h1 with ha | hb
    · split at ha
      · exact absurd ha (by decide)
      · exact absurd ha (List.not_mem_nil _)
    · exact not_mem_natToDigits_T _ hb
  · rcases List.mem_cons.mp h2 with he | hf
    · exact absurd he (by decide)
    · exact not_mem_natToDigits_T _ hf

theorem roundHalfEven_intCast (n : ℤ) : roundHalfEven (n : ℚ) = n := by
  unfold roundHalfEven floorQ
  rw [Rat.num_intCast, Rat.den_intCast]
  simp only [Nat.cast_one, Int.fdiv_one, sub_self]
  rw [if_pos (by norm_num)]

theorem fmt1_zeta (q : ℚ) :
    fmt1 q = String.mk
      ((if roundHalfEven (q * 10) < 0 ∨ (roundHalfEven (q * 10) = 0 ∧ q < 0)
          then ['-'] else []) ++
        natToDigits ((roundHalfEven (q * 10)).natAbs / 10) ++
        '.' :: natToDigits ((roundHalfEven (q * 10)).natAbs % 10)) := rfl

theorem fmt1_natCast_eval (q : ℚ) (n : ℕ) (h : q * 10 = (n : ℚ)) :
    fmt1 q = String.mk (natToDigits (n / 10) ++ '.' :: natToDigits (n % 10)) := by
  have h0 : 0 ≤ q := by nlinarith [(Nat.cast_nonneg n : (0 : ℚ) ≤ (n : ℚ))]
  rw [fmt1_zeta, h, show ((n : ℕ) : ℚ) = (((n : ℕ) : ℤ) : ℚ) by push_cast; ring,
    roundHalfEven_intCast]
  rw [if_neg ?hsign]
  case hsign =>
    rintro (hneg | ⟨-, hq⟩)
    · exact absurd hneg (by omega)
    · exact absurd hq (not_lt.mpr h0)
  simp only [Int.natAbs_ofNat, List.nil_append]

/-! ## The alert trigger substring -/

theorem compareToPrevious_some (current prev : StatementRecord) :
    compareToPrevious current (some prev) =
      (if current.tightening_score - prev.tightening_score > 15 then
        "SIGNIFICANT TIGHTENING SHIFT: +" ++
          fmt1 (current.tightening_score - prev.tightening_score) ++ " points"
      else if current.tightening_score - prev.tightening_score > 5 then
        "Moderate tightening shift: +" ++
          fmt1 (current.tightening_score - prev.tightening_score) ++ " points"
      else if current.tightening_score - prev.tightening_score < -15 then
        "SIGNIFICANT LOOSENING SHIFT: " ++
          fmt1 (current.tightening_score - prev.tightening_score) ++ " points"
      else if current.tightening_score - prev.tightening_score < -5 then
        "Moderate loosening shift: " ++
          fmt1 (current.tightening_score - prev.tightening_score) ++ " points"
      else
        "No significant policy shift: " ++
          fmt1 (current.tightening_score - prev.tightening_score) ++ " points") :=
  rfl

theorem tshift_compare_iff (current prev : StatementRecord) :
    pyIn "TIGHTENING SHIFT" (compareToPrevious current (some prev)) = true ↔
      15 < current.tightening_score - prev.tightening_score := by
  rw [compareToPrevious_some]
  constructor
  · intro h
    by_contra hlt
    rw [if_neg hlt] at h
    split_ifs at h
    all_goals
      unfold pyIn at h
      rw [String.data_append, String.data_append] at h
      have hcnt := (sublist_of_contains h).count_le 'T'
      rw [List.count_append, List.count_append, count_T_fmt1] at hcnt
    · have e1 : List.count 'T' "TIGHTENING SHIFT".data = 3 := by decide
      have e2 : List.count 'T' "Moderate tightening shift: +".data = 0 := by decide
      have e3 : List.count 'T' " points".data = 0 := by decide
      omega
    · have e1 : List.count 'T' "TIGHTENING SHIFT".data = 3 := by decide
      have e2 : List.count 'T' "SIGNIFICANT LOOSENING SHIFT: ".data = 2 := by decide
      have e3 : List.count 'T' " points".data = 0 := by decide
      omega
    · have e1 : List.count 'T' "TIGHTENING SHIFT".data = 3 := by decide
      have e2 : List.count 'T' "Moderate loosening shift: ".data = 0 := by decide
      have e3 : List.count 'T' " points".data = 0 := by decide
      omega
    · have e1 : List.count 'T' "TIGHTENING SHIFT".data = 3 := by decide
      have e2 : List.count 'T' "No significant policy shift: ".data = 0 := by decide
      have e3 : List.count 'T' " points".data = 0 := by decide
      omega
  · intro h15
    rw [if_pos h15]
    exact pyIn_append_left _ _ _ (pyIn_append_left _ _ _ (by decide))

theorem pyIn_generateSummary_of_comparison (statement : StatementRecord)
    (comparisonResult n : String) (h : pyIn n comparisonResult = true) :
    pyIn n (generateSummary statement comparisonResult) = true := by
  unfold generateSummary
  apply pyIn_append_left
  apply pyIn_append_left
  apply pyIn_append_left
  apply pyIn_append_left
  apply pyIn_append_left
  apply pyIn_append_left
  apply pyIn_append_right
  exact h

/-! ## String-order bridge: the executable Python comparison agrees with
the mathematical linear order on strings -/

theorem listLexLt_iff : ∀ (as bs : List Char), listLexLt as bs = true ↔ as.lt bs
  | [], [] => by
    simp only [listLexLt, Bool.false_eq_true, false_iff]
    intro h
    cases h
  | [], b :: bs => by
    simp only [listLexLt, true_iff]
    exact List.lt.nil b bs
  | a :: as, [] => by
    simp only [listLexLt, Bool.false_eq_true, false_iff]
    intro h
    cases h
  | a :: as, b :: bs => by
    simp only [listLexLt]
    split
    · rename_i hab
      simp only [true_iff]
      exact List.lt.head _ _ hab
    · rename_i hab
      split
      · rename_i hba
        simp only [Bool.false_eq_true, false_iff]
        intro h
        cases h with
        | head _ _ hx => exact hab hx
        | tail h1 h2 h3 => exact h2 hba
      · rename_i hba
        rw [listLexLt_iff as bs]
        constructor
        · intro h
          exact List.lt.tail hab hba h
        · intro h
          cases h with
          | head _ _ hx => exact absurd hx hab
          | tail _ _ h3 => exact h3

theorem pyStrLt_iff (a b : String) : pyStrLt a b = true ↔ a < b := by
  unfold pyStrLt
  rw [listLexLt_iff, List.lt_iff_lex_lt]
  exact (@String.lt_iff_toList_lt a b).symm

theorem pyStrLe_iff (a b : String) : pyStrLe a b = true ↔ a ≤ b := by
  unfold pyStrLe
  rw [show ((!pyStrLt b a) = true ↔ ¬ (pyStrLt b a = true)) by
    cases pyStrLt b a <;> simp]
  rw [pyStrLt_iff]
  exact not_lt

/-! ## Previous-record selection -/

theorem find_desc (d : String) : ∀ (l : List StatementRecord),
    l.Pairwise (fun a b => b.date ≤ a.date) →
    (∀ p, l.find? (fun s => pyStrLt s.date d) = some p →
        p ∈ l ∧ p.date < d ∧ ∀ q ∈ l, q.date < d → q.date ≤ p.date) ∧
    (l.find? (fun s => pyStrLt s.date d) = none → ∀ q ∈ l, ¬ q.date < d)
  | [], _ => by
    constructor
    · intro p hp
      simp at hp
    · intro _ q hq
      simp at hq
  | a :: l, hpw => by
    rw [List.pairwise_cons] at hpw
    obtain ⟨ha, htail⟩ := hpw
    by_cases hc : pyStrLt a.date d = true
    · rw [List.find?_cons_of_pos l hc]
      constructor
      · intro p hp
        injection hp with hp
        subst hp
        refine ⟨List.mem_cons_self a l, (pyStrLt_iff _ _).mp hc, ?_⟩
        intro q hq _
        rcases List.mem_cons.mp hq with rfl | hq2
        · exact le_refl _
        · exact ha q hq2
      · intro h
        exact absurd h (by simp)
    · rw [List.find?_cons_of_neg l hc]
      obtain ⟨ih1, ih2⟩ := find_desc d l htail
      constructor
      · intro p hp
        obtain ⟨hmem, hlt, hmax⟩ := ih1 p hp
        refine ⟨List.mem_cons_of_mem a hmem, hlt, ?_⟩
        intro q hq hqd
        rcases List.mem_cons.mp hq with rfl | hq2
        · exact absurd ((pyStrLt_iff q.date d).mpr hqd) hc
        · exact hmax q hq2 hqd
      · intro hn q hq
        rcases List.mem_cons.mp hq with rfl | hq2
        · exact fun hqd => hc ((pyStrLt_iff q.date d).mpr hqd)
        · exact ih2 hn q hq2

theorem findPrevious_spec (history : List StatementRecord) (d : String) :
    (∀ p, findPrevious history d = some p →
        p ∈ history ∧ p.date < d ∧
          ∀ q ∈ history, q.date < d → q.date ≤ p.date) ∧
    (findPrevious history d = none → ∀ q ∈ history, ¬ q.date < d) := by
  unfold findPrevious
  set sorted :=
    history.insertionSort (fun a b => pyStrLe b.date a.date = true) with hs
  have hperm : sorted.Perm history := List.perm_insertionSort _ history
  haveI : IsTotal StatementRecord (fun a b => pyStrLe b.date a.date = true) :=
    ⟨fun a b => by
      rw [pyStrLe_iff, pyStrLe_iff]
      exact le_total _ _⟩
  haveI : IsTrans StatementRecord (fun a b => pyStrLe b.date a.date = true) :=
    ⟨fun a b c hab hbc => by
      rw [pyStrLe_iff] at hab hbc ⊢
      exact le_trans hbc hab⟩
  have hsorted : sorted.Pairwise (fun a b => b.date ≤ a.date) := by
    have h0 := List.sorted_insertionSort
      (fun a b => pyStrLe b.date a.date = true) history
    exact h0.imp fun hab => (pyStrLe_iff _ _).mp hab
  obtain ⟨hfind, hnone⟩ := find_desc d sorted hsorted
  constructor
  · intro p hp
    obtain ⟨hm, hlt, hmax⟩ := hfind p hp
    exact ⟨hperm.mem_iff.mp hm, hlt,
      fun q hq => hmax q (hperm.mem_iff.mpr hq)⟩
  · intro hn q hq
    exact hnone hn q (hperm.mem_iff.mpr hq)

/-! ## Loop-body equations -/

theorem processStatement_pos (force : Bool) (ex : List String)
    (st : CycleState) (stmt : ExtractedStatement)
    (hgate : (force || !ex.contains stmt.date) = true) :
    processStatement force ex st stmt =
      { history := updateHistory force ex st.history stmt.date
          (buildNewStatement stmt),
        new_statements := st.new_statements ++
          [⟨(buildNewStatement stmt).date, (buildNewStatement stmt).url,
            (buildNewStatement stmt).tightening_score,
            (buildNewStatement stmt).tightening_keywords,
            (buildNewStatement stmt).policy_decisions⟩],
        tightening_alerts :=
          if (updateHistory force ex st.history stmt.date
              (buildNewStatement stmt)).length > 1 then
            match findPrevious (updateHistory force ex st.history stmt.date
                (buildNewStatement stmt)) (buildNewStatement stmt).date with
            | some previous =>
              if pyIn "TIGHTENING SHIFT"
                  (compareToPrevious (buildNewStatement stmt) (some previous))
                  = true then
                st.tightening_alerts ++
                  [⟨(buildNewStatement stmt).date,
                    generateSummary (buildNewStatement stmt)
                      (compareToPrevious (buildNewStatement stmt)
                        (some previous))⟩]
              else st.tightening_alerts
            | none => st.tightening_alerts
          else st.tightening_alerts } := by
  unfold processStatement
  rw [if_pos hgate]

theorem processStatement_neg (force : Bool) (ex : List String)
    (st : CycleState) (stmt : ExtractedStatement)
    (hgate : (force || !ex.contains stmt.date) = false) :
    processStatement force ex st stmt = st := by
  unfold processStatement
  rw [hgate]
  simp

/-! ## Concrete evaluations (scores are rationals, whose arithmetic the
kernel does not reduce; these push it through norm_num) -/

theorem analyze_hawkish_pair :
    analyzeTighteningSignals "hawkish hawkish" = (100, ["hawkish"], []) := by
  unfold analyzeTighteningSignals
  rw [if_neg (by decide)]
  have e1 : keywordScan (pyLower "hawkish hawkish") = (2, ["hawkish"]) := by
    decide
  have e2 : searchGap ["shift", "change", "pivot"] 30
      ["stance", "policy", "direction"] (pyLower "hawkish hawkish") = false := by
    decide
  have e3 : searchGap ["more", "increased", "stronger", "further"] 20
      ["restrictive", "hawkish", "tighten"] (pyLower "hawkish hawkish")
      = false := by decide
  have e4 : countAltMatches
      ["balance sheet reduction", "quantitative tightening", "qt",
       "runoff", "run-off"] (pyLower "hawkish hawkish").data = 0 := by decide
  have e5 : searchGap ["raise", "increase", "raising", "increasing"] 30
      ["federal funds rate", "interest rate", "target range", "policy rate"]
      (pyLower "hawkish hawkish") = false := by decide
  have e6 : extractPolicyDecisions "hawkish hawkish" = [] := by decide
  have e7 : (pySplitWS (pyLower "hawkish hawkish").data).length = 2 := by
    decide
  have e8 : searchGap
      ["lower", "decrease", "cut", "reduce", "pause", "hold", "reduction"] 30
      ["federal funds rate", "interest rate", "target range", "policy rate"]
      (pyLower "hawkish hawkish") = false := by decide
  simp only [e1, e2, e3, e4, e5, e6, e7, e8, if_false, Bool.false_eq_true]
  norm_num [max_def, min_def]

theorem build_hawkish_pair :
    buildNewStatement ⟨"2024-01-02", "hawkish hawkish", "u2"⟩ =
      ⟨"2024-01-02", "hawkish hawkish", 100, ["hawkish"], [], "u2"⟩ := by
  unfold buildNewStatement
  simp only [analyze_hawkish_pair]
  decide

/-! ## Claim theorems -/

/-- C3: for every input text — the empty text and all-keyword texts
included — the tightening score returned by analyze_tightening_signals
lies in the closed interval [0, 100]. -/
theorem claim_C3_score_bounds (text : String) :
    0 ≤ (analyzeTighteningSignals text).1 ∧
      (analyzeTighteningSignals text).1 ≤ 100 := by
  unfold analyzeTighteningSignals
  split
  · exact ⟨le_refl 0, by norm_num⟩
  · exact ⟨le_min (by norm_num) (le_max_left 0 _), min_le_left _ _⟩

/-- C9: empty input text yields exactly score 0, an empty keyword list
and an empty decision list. -/
theorem claim_C9_empty_input : analyzeTighteningSignals "" = (0, [], []) := by
  rfl

/-- C4: compare_to_previous classifies the score difference by the fixed
thresholds — above 15 significant tightening, in (5, 15] moderate
tightening, below -15 significant loosening, in [-15, -5) moderate
loosening, otherwise no significant shift — embedding the difference
formatted to one decimal place in every classification string; at
(current=70, previous=50) it yields exactly
"SIGNIFICANT TIGHTENING SHIFT: +20.0 points" and at (50, 48) the
no-significant-shift classification. -/
theorem claim_C4_compare_thresholds :
    (∀ current prev : StatementRecord,
      (current.tightening_score - prev.tightening_score > 15 →
        compareToPrevious current (some prev) =
          "SIGNIFICANT TIGHTENING SHIFT: +" ++
            fmt1 (current.tightening_score - prev.tightening_score) ++
            " points") ∧
      (current.tightening_score - prev.tightening_score > 5 →
        current.tightening_score - prev.tightening_score ≤ 15 →
        compareToPrevious current (some prev) =
          "Moderate tightening shift: +" ++
            fmt1 (current.tightening_score - prev.tightening_score) ++
            " points") ∧
      (current.tightening_score - prev.tightening_score < -15 →
        compareToPrevious current (some prev) =
          "SIGNIFICANT LOOSENING SHIFT: " ++
            fmt1 (current.tightening_score - prev.tightening_score) ++
            " points") ∧
      (-15 ≤ current.tightening_score - prev.tightening_score →
        current.tightening_score - prev.tightening_score < -5 →
        compareToPrevious current (some prev) =
          "Moderate loosening shift: " ++
            fmt1 (current.tightening_score - prev.tightening_score) ++
            " points") ∧
      (-5 ≤ current.tightening_score - prev.tightening_score →
        current.tightening_score - prev.tightening_score ≤ 5 →
        compareToPrevious current (some prev) =
          "No significant policy shift: " ++
            fmt1 (current.tightening_score - prev.tightening_score) ++
            " points")) ∧
    compareToPrevious ⟨"2024-01-02", "", 70, [], [], ""⟩
        (some ⟨"2024-01-01", "", 50, [], [], ""⟩) =
      "SIGNIFICANT TIGHTENING SHIFT: +20.0 points" ∧
    compareToPrevious ⟨"2024-01-02", "", 50, [], [], ""⟩
        (some ⟨"2024-01-01", "", 48, [], [], ""⟩) =
      "No significant policy shift: 2.0 points" := by
  refine ⟨fun current prev => ⟨?_, ?_, ?_, ?_, ?_⟩, ?_, ?_⟩
  · intro h
    rw [compareToPrevious_some]
    split_ifs with h1 h2 h3 h4 <;> first | rfl | (exfalso; linarith)
  · intro h5 h15
    rw [compareToPrevious_some]
    split_ifs with h1 h2 h3 h4 <;> first | rfl | (exfalso; linarith)
  · intro h
    rw [compareToPrevious_some]
    split_ifs with h1 h2 h3 h4 <;> first | rfl | (exfalso; linarith)
  · intro hge hlt
    rw [compareToPrevious_some]
    split_ifs with h1 h2 h3 h4 <;> first | rfl | (exfalso; linarith)
  · intro hge hle
    rw [compareToPrevious_some]
    split_ifs with h1 h2 h3 h4 <;> first | rfl | (exfalso; linarith)
  · rw [compareToPrevious_some]
    norm_num
    rw [fmt1_natCast_eval _ 200 (by norm_num)]
    decide
  · rw [compareToPrevious_some]
    norm_num
    rw [fmt1_natCast_eval _ 20 (by norm_num)]
    decide

/-- Witness for C4 at concrete records with scores 70 and 50. -/
theorem claim_C4_witness :
    ((⟨"2024-01-02", "", 70, [], [], ""⟩ : StatementRecord).tightening_score -
        (⟨"2024-01-01", "", 50, [], [], ""⟩ : StatementRecord).tightening_score
        > 15) ∧
    compareToPrevious ⟨"2024-01-02", "", 70, [], [], ""⟩
        (some ⟨"2024-01-01", "", 50, [], [], ""⟩) =
      "SIGNIFICANT TIGHTENING SHIFT: +" ++
        fmt1 ((⟨"2024-01-02", "", 70, [], [], ""⟩ : StatementRecord).tightening_score -
          (⟨"2024-01-01", "", 50, [], [], ""⟩ : StatementRecord).tightening_score) ++
        " points" :=
  ⟨by norm_num, (claim_C4_compare_thresholds.1 _ _).1 (by norm_num)⟩

/-- C5: the predecessor chosen for comparison is characterized as the
record with the maximum date among all records dated strictly before the
current date (`none` exactly when no such record exists); for histories
whose dates are pairwise distinct — the data model's uniqueness key —
the chosen record is the same for every storage order (permutation) of
the history. -/
theorem claim_C5_previous_selection (history : List StatementRecord)
    (d : String) (hnd : (history.map fun r => r.date).Nodup) :
    (∀ p, findPrevious history d = some p →
        p ∈ history ∧ p.date < d ∧
          ∀ q ∈ history, q.date < d → q.date ≤ p.date) ∧
    (findPrevious history d = none → ∀ q ∈ history, ¬ q.date < d) ∧
    (∀ history2, history2.Perm history →
        findPrevious history2 d = findPrevious history d) := by
  refine ⟨(findPrevious_spec history d).1, (findPrevious_spec history d).2, ?_⟩
  intro history2 hperm2
  rcases h2 : findPrevious history2 d with _ | p2
  · rcases h1 : findPrevious history d with _ | p1
    · rfl
    · exfalso
      obtain ⟨hm, hlt, -⟩ := (findPrevious_spec history d).1 p1 h1
      exact (findPrevious_spec history2 d).2 h2 p1 (hperm2.mem_iff.mpr hm) hlt
  · rcases h1 : findPrevious history d with _ | p1
    · exfalso
      obtain ⟨hm, hlt, -⟩ := (findPrevious_spec history2 d).1 p2 h2
      exact (findPrevious_spec history d).2 h1 p2 (hperm2.mem_iff.mp hm) hlt
    · obtain ⟨hm2, hlt2, hmax2⟩ := (findPrevious_spec history2 d).1 p2 h2
      obtain ⟨hm1, hlt1, hmax1⟩ := (findPrevious_spec history d).1 p1 h1
      have hm2b : p2 ∈ history := hperm2.mem_iff.mp hm2
      have hdq : p2.date = p1.date :=
        le_antisymm (hmax1 p2 hm2b hlt2)
          (hmax2 p1 (hperm2.mem_iff.mpr hm1) hlt1)
      rw [List.inj_on_of_nodup_map hnd hm2b hm1 hdq]

/-- Witness for C5 on a three-record history stored out of
chronological order. -/
theorem claim_C5_witness :
    (([⟨"2024-03-01", "a", 1, [], [], "u3"⟩,
       ⟨"2024-01-01", "b", 2, [], [], "u1"⟩,
       ⟨"2024-02-01", "c", 3, [], [], "u2"⟩] : List StatementRecord).map
        fun r => r.date).Nodup ∧
    ∀ p, findPrevious
        [⟨"2024-03-01", "a", 1, [], [], "u3"⟩,
         ⟨"2024-01-01", "b", 2, [], [], "u1"⟩,
         ⟨"2024-02-01", "c", 3, [], [], "u2"⟩] "2024-02-15" = some p →
      p ∈ ([⟨"2024-03-01", "a", 1, [], [], "u3"⟩,
            ⟨"2024-01-01", "b", 2, [], [], "u1"⟩,
            ⟨"2024-02-01", "c", 3, [], [], "u2"⟩] : List StatementRecord) ∧
      p.date < "2024-02-15" ∧
      ∀ q ∈ ([⟨"2024-03-01", "a", 1, [], [], "u3"⟩,
              ⟨"2024-01-01", "b", 2, [], [], "u1"⟩,
              ⟨"2024-02-01", "c", 3, [], [], "u2"⟩] : List StatementRecord),
        q.date < "2024-02-15" → q.date ≤ p.date :=
  ⟨by decide, (claim_C5_previous_selection _ "2024-02-15" (by decide)).1⟩

/-- C6: with force false, a document whose date is already present in
the loaded history leaves the cycle state — in particular the history's
length and the pre-existing record's fields — completely unchanged. -/
theorem claim_C6_existing_untouched (history0 : List StatementRecord)
    (st : CycleState) (stmt : ExtractedStatement)
    (h : (history0.map fun r => r.date).contains stmt.date = true) :
    processStatement false (history0.map fun r => r.date) st stmt = st := by
  unfold processStatement
  have hcond : (false || !(history0.map fun r => r.date).contains stmt.date)
      = false := by
    rw [h]
    rfl
  rw [hcond]
  simp

/-- Witness for C6: a concrete skipped document. -/
theorem claim_C6_witness :
    (([⟨"2024-01-01", "old", 0, [], [], "u1"⟩] : List StatementRecord).map
        fun r => r.date).contains "2024-01-01" = true ∧
    processStatement false
        (([⟨"2024-01-01", "old", 0, [], [], "u1"⟩] : List StatementRecord).map
          fun r => r.date)
        ⟨[⟨"2024-01-01", "old", 0, [], [], "u1"⟩], [], []⟩
        ⟨"2024-01-01", "some new text", "u9"⟩ =
      ⟨[⟨"2024-01-01", "old", 0, [], [], "u1"⟩], [], []⟩ :=
  ⟨by decide, claim_C6_existing_untouched _ _ _ (by decide)⟩

/-- C1 counterexample: with force true and a document whose date is
absent from history, the document is processed (one new statement in
the result) yet nothing is appended to the in-memory history — the
claim's unconditional "append if new date" fails. -/
theorem claim_C1_counterexample :
    (runMonitoringCycle true []
        (Except.ok [⟨"2024-01-02", "hawkish hawkish", "u2"⟩])).1.new_statements.length = 1 ∧
    (runMonitoringCycle true []
        (Except.ok [⟨"2024-01-02", "hawkish hawkish", "u2"⟩])).2.1 = [] :=
  ⟨rfl, rfl⟩

/-- C1 amended: the new record is appended only when force is false and
the date is absent from the loaded snapshot; when force is true and the
date is present, every entry carrying that date (the single one, under
the date-uniqueness of the data model) is replaced and the length is
unchanged; when force is true and the date is absent, the history is
left unchanged (no append). -/
theorem claim_C1_history_update (existingDates : List String)
    (st : CycleState) (stmt : ExtractedStatement) :
    (processStatement false existingDates st stmt).history =
      (if existingDates.contains stmt.date then st.history
       else st.history ++ [buildNewStatement stmt]) ∧
    (processStatement true existingDates st stmt).history =
      (if existingDates.contains stmt.date then
        st.history.map fun s =>
          if s.date ≠ stmt.date then s else buildNewStatement stmt
       else st.history) ∧
    (processStatement true existingDates st stmt).history.length =
      st.history.length := by
  by_cases hm : stmt.date ∈ existingDates
  · have hc : existingDates.contains stmt.date = true := by simpa using hm
    refine ⟨?_, ?_, ?_⟩ <;> simp [processStatement, updateHistory, hc, hm]
  · have hc : existingDates.contains stmt.date = false := by simpa using hm
    refine ⟨?_, ?_, ?_⟩ <;> simp [processStatement, updateHistory, hc, hm]

/-- C8: the cycle always returns a structured result: on the ok path the
status is "success" with no error; an orchestration-level failure (the
extraction step raising, i.e. outside the per-document isolation inside
extract_statements) yields status "error" carrying the message, with the
in-memory history left untouched. -/
theorem claim_C8_structured_result (force : Bool)
    (history : List StatementRecord)
    (extractResult : Except String (List ExtractedStatement)) :
    ((runMonitoringCycle force history extractResult).1.status = "success" ∧
      (runMonitoringCycle force history extractResult).1.error = none) ∨
    (∃ e, extractResult = Except.error e ∧
      (runMonitoringCycle force history extractResult).1.status = "error" ∧
      (runMonitoringCycle force history extractResult).1.error = some e ∧
      (runMonitoringCycle force history extractResult).2.1 = history) := by
  cases extractResult with
  | error e => exact Or.inr ⟨e, rfl, rfl, rfl, rfl⟩
  | ok statements => exact Or.inl ⟨rfl, rfl⟩

theorem processStatement_alerts (force : Bool) (ex : List String)
    (st : CycleState) (stmt : ExtractedStatement) (prev : StatementRecord)
    (hgate : (force || !ex.contains stmt.date) = true)
    (hlen : (updateHistory force ex st.history stmt.date
        (buildNewStatement stmt)).length > 1)
    (hprev : findPrevious (updateHistory force ex st.history stmt.date
        (buildNewStatement stmt)) (buildNewStatement stmt).date = some prev) :
    (processStatement force ex st stmt).tightening_alerts =
      (if pyIn "TIGHTENING SHIFT"
          (compareToPrevious (buildNewStatement stmt) (some prev)) = true then
        st.tightening_alerts ++
          [⟨(buildNewStatement stmt).date,
            generateSummary (buildNewStatement stmt)
              (compareToPrevious (buildNewStatement stmt) (some prev))⟩]
      else st.tightening_alerts) := by
  rw [processStatement_pos force ex st stmt hgate]
  simp only [if_pos hlen, hprev]

/-- C2 counterexample: a cycle in which two historical records exist and
the comparator classifies the new statement against its predecessor as a
moderate tightening shift, yet no alert is appended — the case-sensitive
trigger substring "TIGHTENING SHIFT" does not occur in the moderate
classification, so "either significance level" fails. -/
theorem claim_C2_counterexample :
    (1 : Nat) < (runMonitoringCycle false
        [⟨"2024-01-01", "old", 90, [], [], "u1"⟩]
        (Except.ok [⟨"2024-01-02", "hawkish hawkish", "u2"⟩])).2.1.length ∧
    compareToPrevious
        (buildNewStatement ⟨"2024-01-02", "hawkish hawkish", "u2"⟩)
        (some ⟨"2024-01-01", "old", 90, [], [], "u1"⟩) =
      "Moderate tightening shift: +10.0 points" ∧
    (runMonitoringCycle false [⟨"2024-01-01", "old", 90, [], [], "u1"⟩]
        (Except.ok [⟨"2024-01-02", "hawkish hawkish", "u2"⟩])).1.tightening_alerts
      = [] := by
  have hcmp : compareToPrevious
      (⟨"2024-01-02", "hawkish hawkish", 100, ["hawkish"], [], "u2"⟩ :
        StatementRecord)
      (some ⟨"2024-01-01", "old", 90, [], [], "u1"⟩) =
      "Moderate tightening shift: +10.0 points" := by
    rw [compareToPrevious_some]
    norm_num
    rw [fmt1_natCast_eval _ 100 (by norm_num)]
    decide
  refine ⟨by decide, ?_, ?_⟩
  · rw [build_hawkish_pair]
    exact hcmp
  · show (processStatement false
        (List.map (fun r : StatementRecord => r.date)
          ([⟨"2024-01-01", "old", 90, [], [], "u1"⟩] : List StatementRecord))
        ⟨[⟨"2024-01-01", "old", 90, [], [], "u1"⟩], [], []⟩
        ⟨"2024-01-02", "hawkish hawkish", "u2"⟩).tightening_alerts = []
    rw [processStatement_alerts _ _ _ _
      ⟨"2024-01-01", "old", 90, [], [], "u1"⟩ (by decide) (by decide)
      (by decide)]
    rw [build_hawkish_pair, hcmp]
    rw [show pyIn "TIGHTENING SHIFT" "Moderate tightening shift: +10.0 points"
      = false from by decide]
    simp

/-- C2 amended: in the loop body of run_monitoring_cycle, when at least
two historical records exist after the update and a most-recent
predecessor is found, an alert carrying the statement date and the
generated summary is appended exactly when the classification contains
the case-sensitive substring "TIGHTENING SHIFT", which happens precisely
for the significant tightening classification (score difference above
15) — the moderate tightening classification does not trigger. -/
theorem claim_C2_alert_trigger (force : Bool) (ex : List String)
    (st : CycleState) (stmt : ExtractedStatement) (prev : StatementRecord)
    (hgate : (force || !ex.contains stmt.date) = true)
    (hlen : (updateHistory force ex st.history stmt.date
        (buildNewStatement stmt)).length > 1)
    (hprev : findPrevious (updateHistory force ex st.history stmt.date
        (buildNewStatement stmt)) (buildNewStatement stmt).date = some prev) :
    (pyIn "TIGHTENING SHIFT"
        (compareToPrevious (buildNewStatement stmt) (some prev)) = true ↔
      15 < (buildNewStatement stmt).tightening_score - prev.tightening_score) ∧
    (15 < (buildNewStatement stmt).tightening_score - prev.tightening_score →
      (processStatement force ex st stmt).tightening_alerts =
        st.tightening_alerts ++
          [⟨(buildNewStatement stmt).date,
            generateSummary (buildNewStatement stmt)
              (compareToPrevious (buildNewStatement stmt) (some prev))⟩]) ∧
    (¬ 15 < (buildNewStatement stmt).tightening_score - prev.tightening_score →
      (processStatement force ex st stmt).tightening_alerts =
        st.tightening_alerts) := by
  refine ⟨tshift_compare_iff _ _, ?_, ?_⟩
  · intro hsig
    rw [processStatement_alerts force ex st stmt prev hgate hlen hprev,
      if_pos ((tshift_compare_iff _ _).mpr hsig)]
  · intro hnot
    rw [processStatement_alerts force ex st stmt prev hgate hlen hprev,
      if_neg]
    intro hx
    exact hnot ((tshift_compare_iff _ _).mp hx)

/-- Witness for C2 on a concrete significant shift (computed score 100
against a stored predecessor scored 0). -/
theorem claim_C2_witness :
    (false || !(([⟨"2024-01-01", "old", 0, [], [], "u1"⟩] :
        List StatementRecord).map fun r => r.date).contains
        ("2024-01-02" : String)) = true ∧
    (processStatement false
        (([⟨"2024-01-01", "old", 0, [], [], "u1"⟩] :
          List StatementRecord).map fun r => r.date)
        ⟨[⟨"2024-01-01", "old", 0, [], [], "u1"⟩], [], []⟩
        ⟨"2024-01-02", "hawkish hawkish", "u2"⟩).tightening_alerts =
      [] ++ [⟨(buildNewStatement ⟨"2024-01-02", "hawkish hawkish", "u2"⟩).date,
        generateSummary
          (buildNewStatement ⟨"2024-01-02", "hawkish hawkish", "u2"⟩)
          (compareToPrevious
            (buildNewStatement ⟨"2024-01-02", "hawkish hawkish", "u2"⟩)
            (some ⟨"2024-01-01", "old", 0, [], [], "u1"⟩))⟩] :=
  ⟨by decide,
    (claim_C2_alert_trigger false _ _ _ ⟨"2024-01-01", "old", 0, [], [], "u1"⟩
      (by decide) (by decide) (by decide)).2.1
      (by rw [build_hawkish_pair]; norm_num)⟩

theorem processStatement_step (force : Bool) (ex : List String)
    (st : CycleState) (stmt : ExtractedStatement) :
    ((processStatement force ex st stmt).new_statements.length ≤
        st.new_statements.length + 1) ∧
    (∀ ns ∈ st.new_statements,
      ns ∈ (processStatement force ex st stmt).new_statements) ∧
    (∀ a ∈ (processStatement force ex st stmt).tightening_alerts,
      a ∈ st.tightening_alerts ∨
        ∃ ns ∈ (processStatement force ex st stmt).new_statements,
          ns.date = a.statement_date ∧
            pyIn "TIGHTENING SHIFT" a.summary = true) := by
  cases hgate : (force || !ex.contains stmt.date) with
  | false =>
    rw [processStatement_neg force ex st stmt hgate]
    exact ⟨by omega, fun ns h => h, fun a ha => Or.inl ha⟩
  | true =>
    rw [processStatement_pos force ex st stmt hgate]
    refine ⟨?_, ?_, ?_⟩
    · simp [List.length_append]
    · intro ns h
      exact List.mem_append_left _ h
    · intro a ha
      dsimp only at ha
      by_cases hl : (updateHistory force ex st.history stmt.date
          (buildNewStatement stmt)).length > 1
      · rw [if_pos hl] at ha
        rcases hp : findPrevious (updateHistory force ex st.history stmt.date
            (buildNewStatement stmt)) (buildNewStatement stmt).date
          with _ | prev
        · rw [hp] at ha
          exact Or.inl ha
        · rw [hp] at ha
          dsimp only at ha
          by_cases hg2 : pyIn "TIGHTENING SHIFT"
              (compareToPrevious (buildNewStatement stmt) (some prev)) = true
          · rw [if_pos hg2] at ha
            rcases List.mem_append.mp ha with h1 | h2
            · exact Or.inl h1
            · rw [List.mem_singleton] at h2
              subst h2
              refine Or.inr ⟨⟨(buildNewStatement stmt).date,
                (buildNewStatement stmt).url,
                (buildNewStatement stmt).tightening_score,
                (buildNewStatement stmt).tightening_keywords,
                (buildNewStatement stmt).policy_decisions⟩,
                List.mem_append_right _ (List.mem_singleton.mpr rfl), rfl, ?_⟩
              exact pyIn_generateSummary_of_comparison _ _ _ hg2
          · rw [if_neg hg2] at ha
            exact Or.inl ha
      · rw [if_neg hl] at ha
        exact Or.inl ha

theorem foldl_processStatement_inv (force : Bool) (ex : List String) :
    ∀ (statements : List ExtractedStatement) (st : CycleState),
      (∀ a ∈ st.tightening_alerts,
        ∃ ns ∈ st.new_statements, ns.date = a.statement_date ∧
          pyIn "TIGHTENING SHIFT" a.summary = true) →
      ((statements.foldl (processStatement force ex) st).new_statements.length
          ≤ st.new_statements.length + statements.length) ∧
      (∀ a ∈ (statements.foldl (processStatement force ex)
          st).tightening_alerts,
        ∃ ns ∈ (statements.foldl (processStatement force ex)
            st).new_statements,
          ns.date = a.statement_date ∧ pyIn "TIGHTENING SHIFT" a.summary = true)
  | [], st => fun hinv => ⟨by simp, by simpa using hinv⟩
  | stmt :: statements, st => fun hinv => by
    simp only [List.foldl_cons, List.length_cons]
    obtain ⟨hlen, hmono, halert⟩ := processStatement_step force ex st stmt
    have hinv2 : ∀ a ∈ (processStatement force ex st stmt).tightening_alerts,
        ∃ ns ∈ (processStatement force ex st stmt).new_statements,
          ns.date = a.statement_date ∧
            pyIn "TIGHTENING SHIFT" a.summary = true := by
      intro a ha
      rcases halert a ha with hold | hnew
      · obtain ⟨ns, hns, hd, hs⟩ := hinv a hold
        exact ⟨ns, hmono ns hns, hd, hs⟩
      · exact hnew
    obtain ⟨ih1, ih2⟩ := foldl_processStatement_inv force ex statements
      (processStatement force ex st stmt) hinv2
    exact ⟨by omega, ih2⟩

/-- C7: in every result of a cycle over extracted statements, the number
of new statements is at most the number of documents discovered, and
every alert corresponds by date to a new-statements entry, with its
summary embedding the significant-tightening trigger substring. -/
theorem claim_C7_result_invariants (force : Bool)
    (history : List StatementRecord) (statements : List ExtractedStatement) :
    ((runMonitoringCycle force history
        (Except.ok statements)).1.new_statements.length ≤ statements.length) ∧
    (∀ a ∈ (runMonitoringCycle force history
        (Except.ok statements)).1.tightening_alerts,
      ∃ ns ∈ (runMonitoringCycle force history
          (Except.ok statements)).1.new_statements,
        ns.date = a.statement_date ∧
          pyIn "TIGHTENING SHIFT" a.summary = true) := by
  have h := foldl_processStatement_inv force (history.map fun r => r.date)
    statements ⟨history, [], []⟩
    (by intro a ha; exact absurd ha (List.not_mem_nil a))
  refine ⟨?_, ?_⟩
  · show (statements.foldl
        (processStatement force (history.map fun r => r.date))
        ⟨history, [], []⟩).new_statements.length ≤ statements.length
    have h1 := h.1
    simpa using h1
  · show ∀ a ∈ (statements.foldl
        (processStatement force (history.map fun r => r.date))
        ⟨history, [], []⟩).tightening_alerts,
      ∃ ns ∈ (statements.foldl
          (processStatement force (history.map fun r => r.date))
          ⟨history, [], []⟩).new_statements,
        ns.date = a.statement_date ∧ pyIn "TIGHTENING SHIFT" a.summary = true
    exact h.2

/-- Witness for C7 on a cycle that raises one alert. -/
theorem claim_C7_witness :
    ∃ ns ∈ (runMonitoringCycle false
        [⟨"2024-01-01", "old", 0, [], [], "u1"⟩]
        (Except.ok [⟨"2024-01-02", "hawkish hawkish", "u2"⟩])).1.new_statements,
      ns.date = (buildNewStatement
        ⟨"2024-01-02", "hawkish hawkish", "u2"⟩).date ∧
      pyIn "TIGHTENING SHIFT"
        (generateSummary
          (buildNewStatement ⟨"2024-01-02", "hawkish hawkish", "u2"⟩)
          (compareToPrevious
            (buildNewStatement ⟨"2024-01-02", "hawkish hawkish", "u2"⟩)
            (some ⟨"2024-01-01", "old", 0, [], [], "u1"⟩))) = true := by
  have halerts : (runMonitoringCycle false
      [⟨"2024-01-01", "old", 0, [], [], "u1"⟩]
      (Except.ok [⟨"2024-01-02", "hawkish hawkish", "u2"⟩])).1.tightening_alerts
      = [⟨(buildNewStatement ⟨"2024-01-02", "hawkish hawkish", "u2"⟩).date,
          generateSummary
            (buildNewStatement ⟨"2024-01-02", "hawkish hawkish", "u2"⟩)
            (compareToPrevious
              (buildNewStatement ⟨"2024-01-02", "hawkish hawkish", "u2"⟩)
              (some ⟨"2024-01-01", "old", 0, [], [], "u1"⟩))⟩] := by
    show (processStatement false
        (List.map (fun r : StatementRecord => r.date)
          ([⟨"2024-01-01", "old", 0, [], [], "u1"⟩] : List StatementRecord))
        ⟨[⟨"2024-01-01", "old", 0, [], [], "u1"⟩], [], []⟩
        ⟨"2024-01-02", "hawkish hawkish", "u2"⟩).tightening_alerts = _
    rw [processStatement_alerts _ _ _ _ ⟨"2024-01-01", "old", 0, [], [], "u1"⟩
      (by decide) (by decide) (by decide)]
    rw [if_pos ((tshift_compare_iff _ _).mpr
      (by rw [build_hawkish_pair]; norm_num))]
    rfl
  have hmem := halerts ▸ List.mem_singleton.mpr rfl
  exact (claim_C7_result_invariants false
    [⟨"2024-01-01", "old", 0, [], [], "u1"⟩]
    [⟨"2024-01-02", "hawkish hawkish", "u2"⟩]).2 _ hmem

/-- C10: any text whose lowering contains the phrase "inflation risks"
makes analyze_tightening_signals record both of the overlapping
reference keywords "inflation risk" and "inflation risks" in the
returned keyword list, and the keyword loop contributes at least 2 to
the tightening count. -/
theorem claim_C10_overlapping_keywords (text : String)
    (h : pyIn "inflation risks" (pyLower text) = true) :
    "inflation risk" ∈ (analyzeTighteningSignals text).2.1 ∧
    "inflation risks" ∈ (analyzeTighteningSignals text).2.1 ∧
    2 ≤ (keywordScan (pyLower text)).1 := by
  have hlow1 : pyLower "inflation risk" = "inflation risk" := by decide
  have hlow2 : pyLower "inflation risks" = "inflation risks" := by decide
  have hsplit : ("inflation risks" : String).data =
      ("inflation risk" : String).data ++ ['s'] := by decide
  have h1 : pyIn "inflation risk" (pyLower text) = true := by
    unfold pyIn at h ⊢
    obtain ⟨s, t, heq⟩ := listContains_iff.mp h
    refine listContains_iff.mpr ⟨s, 's' :: t, ?_⟩
    rw [← heq, hsplit]
    simp [List.append_assoc]
  have hne : ¬ text.data = [] := by
    intro h0
    unfold pyIn at h
    obtain ⟨s, t, heq⟩ := listContains_iff.mp h
    have hdata : (pyLower text).data = [] := by
      show text.data.map Char.toLower = []
      rw [h0]
      rfl
    rw [hdata] at heq
    have h1a := List.append_eq_nil.mp heq
    have h2a := List.append_eq_nil.mp h1a.1
    exact absurd h2a.2 (by decide)
  have hc1 : 0 < pyCount (pyLower "inflation risk") (pyLower text) := by
    rw [hlow1]
    exact countOcc_pos (by decide) _ h1
  have hc2 : 0 < pyCount (pyLower "inflation risks") (pyLower text) := by
    rw [hlow2]
    exact countOcc_pos (by decide) _ h
  have hval : (analyzeTighteningSignals text).2.1 =
      (keywordScan (pyLower text)).2 := by
    unfold analyzeTighteningSignals
    rw [if_neg hne]
  refine ⟨?_, ?_, ?_⟩
  · rw [hval]
    unfold keywordScan
    exact keywordScan_mem_aux _ _ _ _ (by decide)
      (by rw [hlow1]; exact h1) hc1
  · rw [hval]
    unfold keywordScan
    exact keywordScan_mem_aux _ _ _ _ (by decide)
      (by rw [hlow2]; exact h) hc2
  · have hfst := foldl_keywordStep_fst (pyLower text) tighteningKeywords (0, [])
    have hsum := two_le_sum_map
      (fun k => if pyIn (pyLower k) (pyLower text) = true
        then pyCount (pyLower k) (pyLower text) else 0)
      tighteningKeywords "inflation risk" "inflation risks"
      (by decide) (by decide) (by decide)
    simp only [] at hsum
    have hf1 : 1 ≤ (if pyIn (pyLower "inflation risk") (pyLower text) = true
        then pyCount (pyLower "inflation risk") (pyLower text) else 0) := by
      rw [if_pos (by rw [hlow1]; exact h1)]
      exact hc1
    have hf2 : 1 ≤ (if pyIn (pyLower "inflation risks") (pyLower text) = true
        then pyCount (pyLower "inflation risks") (pyLower text) else 0) := by
      rw [if_pos (by rw [hlow2]; exact h)]
      exact hc2
    unfold keywordScan
    rw [hfst]
    omega

/-- Witness for C10 on a concrete text containing "inflation risks". -/
theorem claim_C10_witness :
    pyIn "inflation risks" (pyLower "Inflation risks remain elevated.")
      = true ∧
    ("inflation risk" ∈
        (analyzeTighteningSignals "Inflation risks remain elevated.").2.1 ∧
      "inflation risks" ∈
        (analyzeTighteningSignals "Inflation risks remain elevated.").2.1 ∧
      2 ≤ (keywordScan (pyLower "Inflation risks remain elevated.")).1) :=
  ⟨by decide, claim_C10_overlapping_keywords _ (by decide)⟩

end FedMonitor
